import Mathlib

/-!
Verification of the Fire Creek tree-cutting priority engine
(`fire_creek_analysis.py`), shallowly embedded over ℚ.

Geometry is abstracted the way the scorers consume it: for a fixed grid
cell, each reference feature is reduced to the predicates the code calls
on it (`intersects`, `distance`, `intersection.area`), plus its attribute
table.  A parsed attribute value is `Option ℚ`: `some x` when Python's
`float(...)` succeeds, `none` when it raises.  Python's float division by
zero raises `ZeroDivisionError`; a scorer that can hit it is therefore
`Option`-valued, with `none` modelling the raised exception.
-/

namespace FireCreek

/-- Attribute table of one feature: column name paired with the result of
attempting `float(value)` on its value (`none` = unparseable). -/
abbrev AttrMap := List (String × Option ℚ)

/-- Decides whether `p` is a leading segment of `h` (character lists). -/
def leadsList : List Char → List Char → Bool
  | [], _ => true
  | _ :: _, [] => false
  | p :: ps, h :: hs => p = h && leadsList ps hs

/-- Decides whether the pattern occurs contiguously inside the haystack,
modelling Python's `tok in s` substring test. -/
def containsTok : List Char → List Char → Bool
  | [], pat => leadsList pat []
  | h :: t, pat => leadsList pat (h :: t) || containsTok t pat

/-- Models `col.lower()` on the column name's characters (the shapefile
column names and the token literals are plain ASCII, the domain on which
`Char.toLower` agrees with Python's `str.lower`). -/
def lowerChars (l : List Char) : List Char :=
  l.map Char.toLower

/-- Models `any(tok in col.lower() for tok in tokens)` as used by the
attribute-resolution loops (the token literals are already lowercase). -/
def matchesAny (tokens : List String) (name : String) : Bool :=
  tokens.any (fun t => containsTok (lowerChars name.data) t.data)

/-- Attribute resolution loop shared by all scorers: scan the columns in
order; on the first column whose lowered name contains one of the tokens
and whose value parses as a float, return that value (`break`); a matching
but unparseable column is skipped (`except: continue`); if no column
matches and parses, the documented default stands. -/
def resolveAttr (tokens : List String) (dflt : ℚ) : AttrMap → ℚ
  | [] => dflt
  | (name, v) :: rest =>
    if matchesAny tokens name then
      match v with
      | some x => x
      | none => resolveAttr tokens dflt rest
    else resolveAttr tokens dflt rest

/-- Substring tokens of `calculate_tree_mortality_score`. -/
def mortalityTokens : List String := ["mort", "value", "rate"]

/-- Substring tokens of `calculate_community_score`. -/
def communityTokens : List String := ["import", "prior", "weight"]

/-- Substring tokens of `calculate_egress_score`. -/
def egressTokens : List String := ["prior", "import", "class"]

/-- Substring tokens of `calculate_population_score`. -/
def popTokens : List String := ["pop", "dens", "people"]

/-- An areal reference feature (mortality area or populated area), seen
from one fixed grid cell: its attributes, whether its geometry intersects
the cell, and the area of the polygon intersection with the cell. -/
structure AreaFeature where
  attrs : AttrMap
  intersectsCell : Bool
  intersectionArea : ℚ

/-- A proximity reference feature (community feature, egress route, or
utility), seen from one fixed grid cell: its attributes, the distance
from the cell to the feature, and the `intersects` predicate. -/
structure ProxFeature where
  attrs : AttrMap
  distanceToCell : ℚ
  intersectsCell : Bool

/-- Body of `calculate_tree_mortality_score` for one grid cell: filter
the mortality features that intersect the cell; area-weight their
resolved mortality magnitudes (default 0); divide only when the total
intersection area is positive. -/
def calculate_tree_mortality_score (feats : List AreaFeature) : ℚ :=
  let overlaps := feats.filter (fun f => f.intersectsCell)
  if overlaps.length > 0 then
    let total_intersection_area := (overlaps.map (fun f => f.intersectionArea)).sum
    let weighted_mortality :=
      (overlaps.map (fun f => resolveAttr mortalityTokens 0 f.attrs * f.intersectionArea)).sum
    if total_intersection_area > 0 then weighted_mortality / total_intersection_area
    else 0
  else 0

/-- Per-feature contribution inside `calculate_community_score`:
full importance on contact, linear decay to the 100 m near radius, a
half-height linear decay to the 300 m far radius, zero beyond. -/
def communityContrib (f : ProxFeature) : ℚ :=
  let distance := f.distanceToCell
  let importance := resolveAttr communityTokens 10 f.attrs
  if distance = 0 ∨ f.intersectsCell then importance
  else if distance < 100 then importance * (1 - distance / 100)
  else if distance < 300 then importance * 0.5 * (1 - (distance - 100) / 200)
  else 0

/-- Body of `calculate_community_score` for one grid cell: running
maximum of the per-feature contributions, starting from 0. -/
def calculate_community_score (feats : List ProxFeature) : ℚ :=
  feats.foldl (fun max_score f => max max_score (communityContrib f)) 0

/-- Per-feature contribution inside `calculate_egress_score`: radii
(50, 150), priority resolved with default 10. -/
def egressContrib (f : ProxFeature) : ℚ :=
  let distance := f.distanceToCell
  let priority := resolveAttr egressTokens 10 f.attrs
  if distance = 0 ∨ f.intersectsCell then priority
  else if distance < 50 then priority * (1 - distance / 50)
  else if distance < 150 then priority * 0.5 * (1 - (distance - 50) / 100)
  else 0

/-- Body of `calculate_egress_score` for one grid cell. -/
def calculate_egress_score (feats : List ProxFeature) : ℚ :=
  feats.foldl (fun max_score f => max max_score (egressContrib f)) 0

/-- Per-feature contribution inside `calculate_utility_score`: radii
(30, 100), magnitude fixed to the sub-layer's base priority (attributes
are never consulted for utilities). -/
def utilityContrib (base_priority : ℚ) (f : ProxFeature) : ℚ :=
  let distance := f.distanceToCell
  if distance = 0 ∨ f.intersectsCell then base_priority
  else if distance < 30 then base_priority * (1 - distance / 30)
  else if distance < 100 then base_priority * 0.5 * (1 - (distance - 30) / 70)
  else 0

/-- The five utility sub-layers, as seen from one fixed grid cell. -/
structure UtilityLayers where
  transmission : List ProxFeature
  sub_transmission : List ProxFeature
  dist_circuits : List ProxFeature
  substations : List ProxFeature
  pole_top_subs : List ProxFeature

/-- One inner loop of `calculate_utility_score`: extend the running
maximum over one sub-layer with its base priority. -/
def utilityLayerStep (m : ℚ) (base_priority : ℚ) (layer : List ProxFeature) : ℚ :=
  layer.foldl (fun max_score f => max max_score (utilityContrib base_priority f)) m

/-- Body of `calculate_utility_score` for one grid cell: one running
maximum threaded through the five sub-layers in the order of the source's
`utility_layers` list (Transmission 10, Sub-Transmission 8,
Distribution 6, Substations 10, Pole-Top Subs 7). -/
def calculate_utility_score (L : UtilityLayers) : ℚ :=
  utilityLayerStep
    (utilityLayerStep
      (utilityLayerStep
        (utilityLayerStep
          (utilityLayerStep 0 10 L.transmission)
          8 L.sub_transmission)
        6 L.dist_circuits)
      10 L.substations)
    7 L.pole_top_subs

/-- One iteration of the `calculate_population_score` loop: on an
intersecting feature the code divides the intersection area by the cell
area before anything else, so a zero cell area raises
(`none`); otherwise the ratio times the resolved density (default 10)
accumulates. -/
def popStep (cellArea : ℚ) (acc : Option ℚ) (f : AreaFeature) : Option ℚ :=
  match acc with
  | none => none
  | some total_score =>
    if f.intersectsCell then
      if cellArea = 0 then none
      else some (total_score + f.intersectionArea / cellArea * resolveAttr popTokens 10 f.attrs)
    else some total_score

/-- Body of `calculate_population_score` for one grid cell of area
`cellArea`; `none` models the `ZeroDivisionError` escaping the loop. -/
def calculate_population_score (cellArea : ℚ) (feats : List AreaFeature) : Option ℚ :=
  feats.foldl (popStep cellArea) (some 0)

/-- Models `np.nanmin` on the numeric entries (callers only use it when
at least one numeric entry exists). -/
def nanmin : List ℚ → ℚ
  | [] => 0
  | x :: xs => xs.foldl min x

/-- Models `np.nanmax` on the numeric entries. -/
def nanmax : List ℚ → ℚ
  | [] => 0
  | x :: xs => xs.foldl max x

/-- Embedding of `_normalize_score`.  A sequence entry is `Option ℚ`
(`none` = NaN).  Empty or all-NaN input yields `np.zeros`; a flat range
yields `np.full(..., 5.0)`; otherwise the linear map is applied
entrywise, with NaN entries propagating (`Option.map`). -/
def _normalize_score (values : List (Option ℚ)) (inverse : Bool) : List (Option ℚ) :=
  if values.length = 0 ∨ values.all (fun v => v.isNone) then
    values.map (fun _ => some 0)
  else
    let nums := values.filterMap id
    let min_val := nanmin nums
    let max_val := nanmax nums
    if max_val = min_val then values.map (fun _ => some 5)
    else if inverse then
      values.map (Option.map (fun v => 10 - (v - min_val) / (max_val - min_val) * 10))
    else
      values.map (Option.map (fun v => (v - min_val) / (max_val - min_val) * 10))

/-- The five ordinal priority labels. -/
inductive PriorityClass where
  | veryLow
  | low
  | medium
  | high
  | veryHigh
deriving DecidableEq, Repr

/-- Embedding of `pd.cut(x, bins=[0, 2, 4, 6, 8, 10], labels=[...],
include_lowest=True)` with pandas' default `right=True`: the intervals
are [0,2], (2,4], (4,6], (6,8], (8,10], and a value outside [0,10]
gets no label (NaN). -/
def priority_class_of (x : ℚ) : Option PriorityClass :=
  if 0 ≤ x ∧ x ≤ 2 then some PriorityClass.veryLow
  else if 2 < x ∧ x ≤ 4 then some PriorityClass.low
  else if 4 < x ∧ x ≤ 6 then some PriorityClass.medium
  else if 6 < x ∧ x ≤ 8 then some PriorityClass.high
  else if 8 < x ∧ x ≤ 10 then some PriorityClass.veryHigh
  else none

/-- Embedding of `Series.rank(ascending=False, method="dense")` for a
numeric column: the dense rank of value `v` is one more than the number
of distinct column values strictly greater than `v`. -/
def priority_rank (scores : List ℚ) (v : ℚ) : ℕ :=
  (scores.toFinset.filter (fun w => v < w)).card + 1

/-- The five factor weights set in `__init__` (a plain record; the code
performs no validation of it anywhere). -/
structure Weights where
  tree_mortality : ℚ
  community_features : ℚ
  egress_routes : ℚ
  populated_areas : ℚ
  electric_utilities : ℚ

/-- The literal weight values assigned in `__init__`. -/
def defaultWeights : Weights :=
  { tree_mortality := 0.25
    community_features := 0.20
    egress_routes := 0.20
    populated_areas := 0.20
    electric_utilities := 0.15 }

/-- One cell's five normalized factor scores (the `*_norm` columns). -/
structure FactorNorms where
  mortality_score_norm : ℚ
  community_score_norm : ℚ
  egress_score_norm : ℚ
  population_score_norm : ℚ
  utility_score_norm : ℚ

/-- The weighted sum forming the `overall_priority` column. -/
def overall_priority (w : Weights) (r : FactorNorms) : ℚ :=
  r.mortality_score_norm * w.tree_mortality
    + r.community_score_norm * w.community_features
    + r.egress_score_norm * w.egress_routes
    + r.population_score_norm * w.populated_areas
    + r.utility_score_norm * w.electric_utilities

/-- Embedding of `calculate_overall_priority`: weighted sum per cell,
re-normalization of that column, classification by `pd.cut`, and dense
ranking of the normalized column.  It is a total function of the weights:
the source contains no weight validation, so every weight record is
accepted and scored. -/
def calculate_overall_priority (w : Weights) (rows : List FactorNorms) :
    List ℚ × List (Option ℚ) × List (Option PriorityClass) × List (Option ℕ) :=
  let overall := rows.map (fun r => overall_priority w r)
  let priority_normalized := _normalize_score (overall.map some) false
  let classes := priority_normalized.map (fun o => o.bind priority_class_of)
  let pvals := priority_normalized.filterMap id
  let ranks := priority_normalized.map (fun o => o.map (fun v => priority_rank pvals v))
  (overall, priority_normalized, classes, ranks)

/-- Spec-side definition (claim C5 wording): the per-feature
distance-decay contribution with near/far radii — full magnitude on
intersection or touch, `magnitude × (1 − distance/near)` when
`distance < near`, `magnitude × 0.5 × (1 − (distance − near)/(far − near))`
when `near ≤ distance < far`, and 0 otherwise. -/
def specDecayContrib (near far mag d : ℚ) (inter : Bool) : ℚ :=
  if inter ∨ d = 0 then mag
  else if d < near then mag * (1 - d / near)
  else if near ≤ d ∧ d < far then mag * 0.5 * (1 - (d - near) / (far - near))
  else 0

/-- Spec-side definition (claim C5 wording): the maximum of a list of
contributions, floored at 0 (the running maximum starts at 0, see C10). -/
def specMaxScore (contribs : List ℚ) : ℚ :=
  contribs.foldr max 0

/-- Spec-side definition (claim C8 wording): the linear min–max map
`(v − lo) / (hi − lo) × 10`, or its 10-complement when the inverse flag
is set. -/
def normMap (inverse : Bool) (lo hi v : ℚ) : ℚ :=
  if inverse then 10 - (v - lo) / (hi - lo) * 10 else (v - lo) / (hi - lo) * 10

/-- Spec-side definition (amended claim C1 wording): classification by
right-closed bins [0,2], (2,4], (4,6], (6,8], (8,10], with values
outside [0,10] unclassified. -/
def bucketSpec (x : ℚ) : Option PriorityClass :=
  if x < 0 then none
  else if x ≤ 2 then some PriorityClass.veryLow
  else if x ≤ 4 then some PriorityClass.low
  else if x ≤ 6 then some PriorityClass.medium
  else if x ≤ 8 then some PriorityClass.high
  else if x ≤ 10 then some PriorityClass.veryHigh
  else none

/-- A factor-weight record mutated as in claim C2's scenario: the
tree-mortality weight lowered from 0.25 to 0.20, so the five weights sum
to 0.95. -/
def mutatedWeights : Weights :=
  { tree_mortality := 0.20
    community_features := 0.20
    egress_routes := 0.20
    populated_areas := 0.20
    electric_utilities := 0.15 }

/-! Helper lemmas about folds with `min` and `max`. -/

theorem foldl_min_le_init (l : List ℚ) (a : ℚ) : l.foldl min a ≤ a := by
  induction l generalizing a with
  | nil => exact le_refl a
  | cons x xs ih => exact le_trans (ih (min a x)) (min_le_left a x)

theorem foldl_min_le_mem (l : List ℚ) (a x : ℚ) (hx : x ∈ l) : l.foldl min a ≤ x := by
  induction l generalizing a with
  | nil => cases hx
  | cons y ys ih =>
    rcases List.mem_cons.mp hx with rfl | hx
    · exact le_trans (foldl_min_le_init ys (min a x)) (min_le_right a x)
    · exact ih (min a y) hx

theorem nanmin_le {l : List ℚ} {x : ℚ} (hx : x ∈ l) : nanmin l ≤ x := by
  cases l with
  | nil => cases hx
  | cons y ys =>
    rcases List.mem_cons.mp hx with rfl | hx
    · exact foldl_min_le_init ys x
    · exact foldl_min_le_mem ys y x hx

theorem init_le_foldl_max (l : List ℚ) (a : ℚ) : a ≤ l.foldl max a := by
  induction l generalizing a with
  | nil => exact le_refl a
  | cons x xs ih => exact le_trans (le_max_left a x) (ih (max a x))

theorem mem_le_foldl_max (l : List ℚ) (a x : ℚ) (hx : x ∈ l) : x ≤ l.foldl max a := by
  induction l generalizing a with
  | nil => cases hx
  | cons y ys ih =>
    rcases List.mem_cons.mp hx with rfl | hx
    · exact le_trans (le_max_right a x) (init_le_foldl_max ys (max a x))
    · exact ih (max a y) hx

theorem le_nanmax {l : List ℚ} {x : ℚ} (hx : x ∈ l) : x ≤ nanmax l := by
  cases l with
  | nil => cases hx
  | cons y ys =>
    rcases List.mem_cons.mp hx with rfl | hx
    · exact init_le_foldl_max ys x
    · exact mem_le_foldl_max ys y x hx

theorem nanmin_le_nanmax {l : List ℚ} (h : l ≠ []) : nanmin l ≤ nanmax l := by
  cases l with
  | nil => exact absurd rfl h
  | cons y ys => exact le_trans (nanmin_le (List.mem_cons_self y ys)) (le_nanmax (List.mem_cons_self y ys))

theorem le_foldl_maxf {α : Type} (g : α → ℚ) (l : List α) (a : ℚ) :
    a ≤ l.foldl (fun m f => max m (g f)) a := by
  induction l generalizing a with
  | nil => exact le_refl a
  | cons x xs ih => exact le_trans (le_max_left a (g x)) (ih (max a (g x)))

theorem foldr_max_nonneg (l : List ℚ) : 0 ≤ l.foldr max 0 := by
  induction l with
  | nil => exact le_refl 0
  | cons x xs ih => exact le_trans ih (le_max_right x (xs.foldr max 0))

theorem foldr_max_init (l : List ℚ) (b : ℚ) (hb : 0 ≤ b) :
    l.foldr max b = max b (l.foldr max 0) := by
  induction l with
  | nil => exact (max_eq_left hb).symm
  | cons x xs ih =>
    simp only [List.foldr_cons]
    rw [ih]
    exact max_left_comm x b (xs.foldr max 0)

theorem foldl_maxf_eq {α : Type} (g : α → ℚ) (l : List α) (a : ℚ) (ha : 0 ≤ a) :
    l.foldl (fun m f => max m (g f)) a = max a ((l.map g).foldr max 0) := by
  induction l generalizing a with
  | nil => exact (max_eq_left ha).symm
  | cons x xs ih =>
    simp only [List.foldl_cons, List.map_cons, List.foldr_cons]
    rw [ih (max a (g x)) (le_trans ha (le_max_left a (g x)))]
    rw [max_assoc]

theorem foldr_max_le_of_mem {l : List ℚ} {x : ℚ} (h : x ∈ l) : x ≤ l.foldr max 0 := by
  induction l with
  | nil => cases h
  | cons y ys ih =>
    rcases List.mem_cons.mp h with rfl | h
    · exact le_max_left x (ys.foldr max 0)
    · exact le_trans (ih h) (le_max_right y (ys.foldr max 0))

theorem specMaxScore_append (l1 l2 : List ℚ) :
    specMaxScore (l1 ++ l2) = max (specMaxScore l1) (specMaxScore l2) := by
  unfold specMaxScore
  rw [List.foldr_append, foldr_max_init l1 _ (foldr_max_nonneg l2), max_comm]

/-! Helper lemmas about the population-score loop. -/

theorem pop_foldl_some (cellArea : ℚ) (h : cellArea ≠ 0) (feats : List AreaFeature) (t : ℚ) :
    feats.foldl (popStep cellArea) (some t)
      = some (t + ((feats.filter (fun f => f.intersectsCell)).map
          (fun f => f.intersectionArea / cellArea * resolveAttr popTokens 10 f.attrs)).sum) := by
  induction feats generalizing t with
  | nil => simp
  | cons f fs ih =>
    by_cases hf : f.intersectsCell = true
    · simp only [List.foldl_cons, popStep, hf, if_true, if_neg h, ih, List.filter_cons_of_pos hf,
        List.map_cons, List.sum_cons]
      rw [add_assoc]
    · simp only [List.foldl_cons, popStep, if_neg hf, ih, List.filter_cons_of_neg hf]

theorem pop_foldl_none (cellArea : ℚ) (feats : List AreaFeature) :
    feats.foldl (popStep cellArea) none = none := by
  induction feats with
  | nil => rfl
  | cons f fs ih => simpa [popStep] using ih

theorem pop_foldl_zero_none (feats : List AreaFeature) (t : ℚ)
    (hex : ∃ f ∈ feats, f.intersectsCell = true) :
    feats.foldl (popStep 0) (some t) = none := by
  induction feats generalizing t with
  | nil => rcases hex with ⟨f, hf, _⟩; cases hf
  | cons f fs ih =>
    by_cases hf : f.intersectsCell = true
    · simp only [List.foldl_cons, popStep, hf, if_true, if_pos rfl]
      exact pop_foldl_none 0 fs
    · simp only [List.foldl_cons, popStep, hf, if_false]
      apply ih
      rcases hex with ⟨g, hg, hgi⟩
      rcases List.mem_cons.mp hg with rfl | hg
      · exact absurd hgi hf
      · exact ⟨g, hg, hgi⟩

theorem pop_foldl_no_inter (cellArea : ℚ) (feats : List AreaFeature) (t : ℚ)
    (h : ∀ f ∈ feats, f.intersectsCell = false) :
    feats.foldl (popStep cellArea) (some t) = some t := by
  induction feats with
  | nil => rfl
  | cons f fs ih =>
    have hf : f.intersectsCell = false := h f (List.mem_cons_self f fs)
    simp only [List.foldl_cons, popStep, hf, if_false]
    exact ih (fun g hg => h g (List.mem_cons_of_mem f hg))

/-! Per-feature equality between the source's contribution expressions and
the spec-side decay contribution. -/

theorem communityContrib_eq (f : ProxFeature) :
    communityContrib f
      = specDecayContrib 100 300 (resolveAttr communityTokens 10 f.attrs)
          f.distanceToCell f.intersectsCell := by
  unfold communityContrib specDecayContrib
  by_cases h1 : f.distanceToCell = 0 ∨ f.intersectsCell = true
  · rw [if_pos h1, if_pos (Or.symm h1)]
  · rw [if_neg h1, if_neg (fun h => h1 (Or.symm h))]
    by_cases h2 : f.distanceToCell < 100
    · rw [if_pos h2, if_pos h2]
    · rw [if_neg h2, if_neg h2]
      by_cases h3 : f.distanceToCell < 300
      · rw [if_pos h3, if_pos ⟨not_lt.mp h2, h3⟩]
        norm_num
      · rw [if_neg h3, if_neg (fun hc => h3 hc.2)]

theorem egressContrib_eq (f : ProxFeature) :
    egressContrib f
      = specDecayContrib 50 150 (resolveAttr egressTokens 10 f.attrs)
          f.distanceToCell f.intersectsCell := by
  unfold egressContrib specDecayContrib
  by_cases h1 : f.distanceToCell = 0 ∨ f.intersectsCell = true
  · rw [if_pos h1, if_pos (Or.symm h1)]
  · rw [if_neg h1, if_neg (fun h => h1 (Or.symm h))]
    by_cases h2 : f.distanceToCell < 50
    · rw [if_pos h2, if_pos h2]
    · rw [if_neg h2, if_neg h2]
      by_cases h3 : f.distanceToCell < 150
      · rw [if_pos h3, if_pos ⟨not_lt.mp h2, h3⟩]
        norm_num
      · rw [if_neg h3, if_neg (fun hc => h3 hc.2)]

theorem utilityContrib_eq (bp : ℚ) (f : ProxFeature) :
    utilityContrib bp f
      = specDecayContrib 30 100 bp f.distanceToCell f.intersectsCell := by
  unfold utilityContrib specDecayContrib
  by_cases h1 : f.distanceToCell = 0 ∨ f.intersectsCell = true
  · rw [if_pos h1, if_pos (Or.symm h1)]
  · rw [if_neg h1, if_neg (fun h => h1 (Or.symm h))]
    by_cases h2 : f.distanceToCell < 30
    · rw [if_pos h2, if_pos h2]
    · rw [if_neg h2, if_neg h2]
      by_cases h3 : f.distanceToCell < 100
      · rw [if_pos h3, if_pos ⟨not_lt.mp h2, h3⟩]
        norm_num
      · rw [if_neg h3, if_neg (fun hc => h3 hc.2)]

theorem utilityLayerStep_eq (m bp : ℚ) (layer : List ProxFeature) (hm : 0 ≤ m) :
    utilityLayerStep m bp layer
      = max m (specMaxScore (layer.map
          (fun f => specDecayContrib 30 100 bp f.distanceToCell f.intersectsCell))) := by
  unfold utilityLayerStep specMaxScore
  rw [foldl_maxf_eq (utilityContrib bp) layer m hm]
  congr 2
  exact List.map_congr_left (fun f _ => utilityContrib_eq bp f)

theorem specMaxScore_nonneg (l : List ℚ) : 0 ≤ specMaxScore l :=
  foldr_max_nonneg l

theorem calculate_community_score_eq (feats : List ProxFeature) :
    calculate_community_score feats
      = specMaxScore (feats.map (fun f =>
          specDecayContrib 100 300 (resolveAttr communityTokens 10 f.attrs)
            f.distanceToCell f.intersectsCell)) := by
  unfold calculate_community_score
  rw [foldl_maxf_eq communityContrib feats 0 le_rfl, max_eq_right (foldr_max_nonneg _)]
  unfold specMaxScore
  congr 1
  exact List.map_congr_left (fun f _ => communityContrib_eq f)

theorem calculate_egress_score_eq (feats : List ProxFeature) :
    calculate_egress_score feats
      = specMaxScore (feats.map (fun f =>
          specDecayContrib 50 150 (resolveAttr egressTokens 10 f.attrs)
            f.distanceToCell f.intersectsCell)) := by
  unfold calculate_egress_score
  rw [foldl_maxf_eq egressContrib feats 0 le_rfl, max_eq_right (foldr_max_nonneg _)]
  unfold specMaxScore
  congr 1
  exact List.map_congr_left (fun f _ => egressContrib_eq f)

theorem calculate_utility_score_eq (U : UtilityLayers) :
    calculate_utility_score U
      = specMaxScore (
          U.transmission.map (fun f => specDecayContrib 30 100 10 f.distanceToCell f.intersectsCell)
          ++ U.sub_transmission.map (fun f => specDecayContrib 30 100 8 f.distanceToCell f.intersectsCell)
          ++ U.dist_circuits.map (fun f => specDecayContrib 30 100 6 f.distanceToCell f.intersectsCell)
          ++ U.substations.map (fun f => specDecayContrib 30 100 10 f.distanceToCell f.intersectsCell)
          ++ U.pole_top_subs.map (fun f => specDecayContrib 30 100 7 f.distanceToCell f.intersectsCell)) := by
  unfold calculate_utility_score
  rw [utilityLayerStep_eq 0 10 U.transmission le_rfl]
  rw [utilityLayerStep_eq _ 8 U.sub_transmission (le_max_left _ _)]
  rw [utilityLayerStep_eq _ 6 U.dist_circuits (le_trans (le_max_left _ _) (le_max_left _ _))]
  rw [utilityLayerStep_eq _ 10 U.substations
    (le_trans (le_trans (le_max_left _ _) (le_max_left _ _)) (le_max_left _ _))]
  rw [utilityLayerStep_eq _ 7 U.pole_top_subs
    (le_trans (le_trans (le_trans (le_max_left _ _) (le_max_left _ _)) (le_max_left _ _))
      (le_max_left _ _))]
  rw [specMaxScore_append, specMaxScore_append, specMaxScore_append, specMaxScore_append]
  rw [max_eq_right (specMaxScore_nonneg _)]

/-! Claim theorems. -/

/-- C1, counterexample: the source classifies with
`pd.cut(..., bins=[0,2,4,6,8,10], include_lowest=True)` and pandas'
default right-closed intervals, so a final normalized score of exactly
2.0 falls in the first bin [0,2] and is labelled "Very Low", not "Low"
as the claim states. -/
theorem c1_counterexample :
    priority_class_of 2 = some PriorityClass.veryLow
      ∧ priority_class_of 2 ≠ some PriorityClass.low := by
  constructor
  · unfold priority_class_of
    rw [if_pos ⟨by norm_num, le_refl (2:ℚ)⟩]
  · unfold priority_class_of
    rw [if_pos ⟨by norm_num, le_refl (2:ℚ)⟩]
    simp

/-- C1, amended: the priority class is derived from right-closed bins
[0,2], (2,4], (4,6], (6,8], (8,10] — only the lowest bin is also closed
at 0, every bin is closed at its upper edge, and a score of exactly 2.0
is "Very Low".  Values outside [0,10] receive no label. -/
theorem c1_amended_thm (x : ℚ) : priority_class_of x = bucketSpec x := by
  unfold priority_class_of bucketSpec
  rcases lt_or_le x 0 with h0 | h0
  · rw [if_neg (fun hc => absurd h0 (not_lt.mpr hc.1)),
      if_neg (fun hc => by have := hc.1; linarith),
      if_neg (fun hc => by have := hc.1; linarith),
      if_neg (fun hc => by have := hc.1; linarith),
      if_neg (fun hc => by have := hc.1; linarith), if_pos h0]
  · rcases le_or_lt x 2 with h1 | h1
    · rw [if_pos ⟨h0, h1⟩, if_neg (not_lt.mpr h0), if_pos h1]
    · rcases le_or_lt x 4 with h2 | h2
      · rw [if_neg (fun hc => absurd hc.2 (not_le.mpr h1)), if_pos ⟨h1, h2⟩,
          if_neg (not_lt.mpr h0), if_neg (not_le.mpr h1), if_pos h2]
      · rcases le_or_lt x 6 with h3 | h3
        · rw [if_neg (fun hc => by have := hc.2; linarith),
            if_neg (fun hc => absurd hc.2 (not_le.mpr h2)), if_pos ⟨h2, h3⟩,
            if_neg (not_lt.mpr h0), if_neg (not_le.mpr (by linarith)),
            if_neg (not_le.mpr h2), if_pos h3]
        · rcases le_or_lt x 8 with h4 | h4
          · rw [if_neg (fun hc => by have := hc.2; linarith),
              if_neg (fun hc => by have := hc.2; linarith),
              if_neg (fun hc => absurd hc.2 (not_le.mpr h3)), if_pos ⟨h3, h4⟩,
              if_neg (not_lt.mpr h0), if_neg (not_le.mpr (by linarith)),
              if_neg (not_le.mpr (by linarith)), if_neg (not_le.mpr h3), if_pos h4]
          · rcases le_or_lt x 10 with h5 | h5
            · rw [if_neg (fun hc => by have := hc.2; linarith),
                if_neg (fun hc => by have := hc.2; linarith),
                if_neg (fun hc => by have := hc.2; linarith),
                if_neg (fun hc => absurd hc.2 (not_le.mpr h4)), if_pos ⟨h4, h5⟩,
                if_neg (not_lt.mpr h0), if_neg (not_le.mpr (by linarith)),
                if_neg (not_le.mpr (by linarith)), if_neg (not_le.mpr (by linarith)),
                if_neg (not_le.mpr h4), if_pos h5]
            · rw [if_neg (fun hc => by have := hc.2; linarith),
                if_neg (fun hc => by have := hc.2; linarith),
                if_neg (fun hc => by have := hc.2; linarith),
                if_neg (fun hc => by have := hc.2; linarith),
                if_neg (fun hc => absurd hc.2 (not_le.mpr h5)),
                if_neg (not_lt.mpr h0), if_neg (not_le.mpr (by linarith)),
                if_neg (not_le.mpr (by linarith)), if_neg (not_le.mpr (by linarith)),
                if_neg (not_le.mpr (by linarith)), if_neg (not_le.mpr h5)]

/-- C2, counterexample: the claim says a weight set summing to 0.95 is
rejected as a fatal configuration error before scoring begins.  The
source contains no weight validation at all: `mutatedWeights` sums to
19/20 = 0.95, yet the aggregator runs to completion on it and produces a
fully scored, classified and ranked table. -/
theorem c2_counterexample :
    mutatedWeights.tree_mortality + mutatedWeights.community_features
        + mutatedWeights.egress_routes + mutatedWeights.populated_areas
        + mutatedWeights.electric_utilities = 19/20
      ∧ calculate_overall_priority mutatedWeights
          [{ mortality_score_norm := 10, community_score_norm := 10, egress_score_norm := 10,
             population_score_norm := 10, utility_score_norm := 10 }]
          = ([19/2], [some 5], [some PriorityClass.medium], [some 1]) := by
  constructor
  · norm_num [mutatedWeights]
  · have h0 : overall_priority mutatedWeights
        { mortality_score_norm := 10, community_score_norm := 10, egress_score_norm := 10,
          population_score_norm := 10, utility_score_norm := 10 } = 19/2 := by
      norm_num [overall_priority, mutatedWeights]
    have h1 : _normalize_score [some (19/2)] false = [some 5] := by
      norm_num [_normalize_score, List.filterMap, nanmin, nanmax]
    have h2 : priority_rank [5] 5 = 1 := by decide
    simp only [calculate_overall_priority, List.map, h0, h1]
    norm_num [priority_class_of, List.filterMap, h2]

/-- C2, amended: the engine performs no validation of the factor
weights.  The default weight set {0.25, 0.20, 0.20, 0.20, 0.15} does sum
to 1.0 with every weight positive, but any weight record whatsoever —
including ones summing to 0.95 or 1.05 or containing non-positive
entries — is accepted and used directly in the weighted sum; no error is
raised before or during scoring. -/
theorem c2_amended_thm :
    (defaultWeights.tree_mortality + defaultWeights.community_features
        + defaultWeights.egress_routes + defaultWeights.populated_areas
        + defaultWeights.electric_utilities = 1)
      ∧ (0 < defaultWeights.tree_mortality ∧ 0 < defaultWeights.community_features
          ∧ 0 < defaultWeights.egress_routes ∧ 0 < defaultWeights.populated_areas
          ∧ 0 < defaultWeights.electric_utilities)
      ∧ ∀ (w : Weights) (rows : List FactorNorms),
          (calculate_overall_priority w rows).1 = rows.map (overall_priority w) := by
  refine ⟨by norm_num [defaultWeights], by norm_num [defaultWeights], ?_⟩
  intro w rows
  rfl

/-- C3, counterexample: the claim says a zero-area grid cell yields a
score-0 contribution rather than a division failure, and that the
populated-areas scorer never divides by a zero cell area.  In the
source, `calculate_population_score` computes
`intersection.area / grid_cell.geometry.area` unguarded as soon as a
populated area intersects the cell, so a zero-area cell intersecting one
populated-area feature raises `ZeroDivisionError` (modelled as `none`)
instead of contributing 0. -/
theorem c3_counterexample :
    calculate_population_score 0
      [{ attrs := [], intersectsCell := true, intersectionArea := 1 }] = none := rfl

/-- C3, amended: zero-area and zero-total-area intersections are
score-0 contributions, and the mortality scorer never divides by a zero
total intersection area (its division is guarded by
`total_intersection_area > 0`).  The populated-areas scorer is safe for
every cell of nonzero area — zero-area intersections then contribute 0 —
but it divides by the cell area unconditionally whenever a populated
area intersects the cell, so a zero-area cell is a division failure
there, not a score-0 contribution. -/
theorem c3_amended_thm :
    (∀ feats : List AreaFeature,
        ((feats.filter (fun f => f.intersectsCell)).map (fun f => f.intersectionArea)).sum = 0 →
        calculate_tree_mortality_score feats = 0)
      ∧ (∀ (cellArea : ℚ) (feats : List AreaFeature), cellArea ≠ 0 →
          (calculate_population_score cellArea feats).isSome = true)
      ∧ (∀ (cellArea : ℚ) (feats : List AreaFeature), cellArea ≠ 0 →
          (∀ f ∈ feats, f.intersectsCell = true → f.intersectionArea = 0) →
          calculate_population_score cellArea feats = some 0)
      ∧ (∀ feats : List AreaFeature, (∃ f ∈ feats, f.intersectsCell = true) →
          calculate_population_score 0 feats = none) := by
  refine ⟨?_, ?_, ?_, ?_⟩
  · intro feats h
    unfold calculate_tree_mortality_score
    dsimp only
    rw [h]
    simp
  · intro cellArea feats h
    unfold calculate_population_score
    rw [pop_foldl_some cellArea h feats 0]
    rfl
  · intro cellArea feats h hzero
    unfold calculate_population_score
    rw [pop_foldl_some cellArea h feats 0]
    have : ((feats.filter (fun f => f.intersectsCell)).map
        (fun f => f.intersectionArea / cellArea * resolveAttr popTokens 10 f.attrs)).sum = 0 := by
      apply List.sum_eq_zero
      intro x hx
      rcases List.mem_map.mp hx with ⟨f, hf, rfl⟩
      rcases List.mem_filter.mp hf with ⟨hmem, hint⟩
      rw [hzero f hmem hint]
      rw [zero_div, zero_mul]
    rw [this, add_zero]
  · intro feats hex
    exact pop_foldl_zero_none feats 0 hex

/-- C3, amended, witness: instantiating the amended statement — a cell
whose two intersecting mortality features have zero intersection area
scores 0; a cell of area 1 never fails in the population scorer and
scores 0 when its one intersection has zero area; a zero-area cell with
an intersecting populated area fails. -/
theorem c3_amended_witness :
    calculate_tree_mortality_score
        [{ attrs := [], intersectsCell := true, intersectionArea := 0 },
         { attrs := [], intersectsCell := true, intersectionArea := 0 }] = 0
      ∧ (calculate_population_score 1
          [{ attrs := [], intersectsCell := true, intersectionArea := 0 }]).isSome = true
      ∧ calculate_population_score 1
          [{ attrs := [], intersectsCell := true, intersectionArea := 0 }] = some 0
      ∧ calculate_population_score 0
          [{ attrs := [], intersectsCell := true, intersectionArea := 1 }] = none := by
  refine ⟨?_, ?_, ?_, ?_⟩
  · exact c3_amended_thm.1 _ (by norm_num [List.filter])
  · exact c3_amended_thm.2.1 1 _ one_ne_zero
  · exact c3_amended_thm.2.2.1 1 _ one_ne_zero
      (by intro f hf _; simp at hf; rw [hf])
  · exact c3_amended_thm.2.2.2 _
      ⟨{ attrs := [], intersectsCell := true, intersectionArea := 1 }, by simp, rfl⟩

/-- C4: the tree-mortality raw score is the area-weighted average
Σ(magnitude × intersection area) / Σ(intersection area) over the
mortality features intersecting the cell, with magnitude resolved from
the feature's attributes (tokens "mort"/"value"/"rate", default 0 when
no attribute matches and parses); when nothing intersects or the total
intersection area is zero, the score is 0. -/
theorem c4_thm (feats : List AreaFeature)
    (hpos : ∀ f ∈ feats, 0 ≤ f.intersectionArea) :
    (calculate_tree_mortality_score feats =
        if ((feats.filter (fun f => f.intersectsCell)).map (fun f => f.intersectionArea)).sum = 0
        then 0
        else ((feats.filter (fun f => f.intersectsCell)).map
                (fun f => resolveAttr mortalityTokens 0 f.attrs * f.intersectionArea)).sum
              / ((feats.filter (fun f => f.intersectsCell)).map (fun f => f.intersectionArea)).sum)
      ∧ (∀ attrs : AttrMap,
          (∀ p ∈ attrs, matchesAny mortalityTokens p.1 = false ∨ p.2 = none) →
          resolveAttr mortalityTokens 0 attrs = 0) := by
  constructor
  · unfold calculate_tree_mortality_score
    dsimp only
    have hTnonneg : 0 ≤ ((feats.filter (fun f => f.intersectsCell)).map
        (fun f => f.intersectionArea)).sum := by
      apply List.sum_nonneg
      intro x hx
      rcases List.mem_map.mp hx with ⟨f, hf, rfl⟩
      exact hpos f (List.mem_filter.mp hf).1
    by_cases hT : ((feats.filter (fun f => f.intersectsCell)).map
        (fun f => f.intersectionArea)).sum = 0
    · rw [if_pos hT, hT]
      simp
    · have hTpos : 0 < ((feats.filter (fun f => f.intersectsCell)).map
          (fun f => f.intersectionArea)).sum := lt_of_le_of_ne hTnonneg (Ne.symm hT)
      rw [if_neg hT, if_pos hTpos]
      have hne : feats.filter (fun f => f.intersectsCell) ≠ [] := by
        intro hnil
        rw [hnil] at hT
        exact hT rfl
      rw [if_pos (by
        cases hfilter : feats.filter (fun f => f.intersectsCell) with
        | nil => exact absurd hfilter hne
        | cons a l => simp)]
  · intro attrs h
    induction attrs with
    | nil => rfl
    | cons p rest ih =>
      rcases h p (List.mem_cons_self p rest) with hm | hv
      · cases p with
        | mk name v =>
          unfold resolveAttr
          rw [if_neg (by simp at hm ⊢; exact hm)]
          exact ih (fun q hq => h q (List.mem_cons_of_mem (name, v) hq))
      · cases p with
        | mk name v =>
          simp only at hv
          unfold resolveAttr
          rw [hv]
          by_cases hm : matchesAny mortalityTokens name = true
          · rw [if_pos hm]
            exact ih (fun q hq => h q (List.mem_cons_of_mem (name, v) hq))
          · rw [if_neg hm]
            exact ih (fun q hq => h q (List.mem_cons_of_mem (name, v) hq))

/-- C4, witness: the spec's scenario — a cell covered by a magnitude-4
mortality feature over area 60 and a magnitude-8 feature over area 40 —
scores (4×60 + 8×40)/100 = 5.6 = 28/5, via `c4_thm` with its positivity
hypothesis discharged on the concrete input. -/
theorem c4_witness :
    calculate_tree_mortality_score
      [{ attrs := [("mortality", some 4)], intersectsCell := true, intersectionArea := 60 },
       { attrs := [("mortality", some 8)], intersectsCell := true, intersectionArea := 40 }]
      = 28/5 := by
  have h := (c4_thm
    [{ attrs := [("mortality", some 4)], intersectsCell := true, intersectionArea := 60 },
     { attrs := [("mortality", some 8)], intersectsCell := true, intersectionArea := 40 }]
    (by intro f hf; simp at hf; rcases hf with rfl | rfl <;> norm_num)).1
  rw [h]
  have h1 : resolveAttr mortalityTokens 0 [("mortality", some 4)] = 4 := by decide
  have h2 : resolveAttr mortalityTokens 0 [("mortality", some 8)] = 8 := by decide
  norm_num [List.filter, h1, h2]

/-- C6: the populated-areas raw score is the sum Σ(ratio × density)
over the populated-area features intersecting the cell, where ratio is
the intersection area divided by the (nonzero) cell area and density is
resolved from the attributes with default 10; contributions accumulate
across features, and a cell intersecting no populated area scores 0
(for any cell area — no division is even attempted then). -/
theorem c6_thm (cellArea : ℚ) (feats : List AreaFeature) :
    (cellArea ≠ 0 →
        calculate_population_score cellArea feats
          = some (((feats.filter (fun f => f.intersectsCell)).map
              (fun f => f.intersectionArea / cellArea * resolveAttr popTokens 10 f.attrs)).sum))
      ∧ ((∀ f ∈ feats, f.intersectsCell = false) →
          calculate_population_score cellArea feats = some 0) := by
  constructor
  · intro h
    unfold calculate_population_score
    rw [pop_foldl_some cellArea h feats 0, zero_add]
  · intro h
    unfold calculate_population_score
    exact pop_foldl_no_inter cellArea feats 0 h

/-- C6, witness: the spec's scenario — full coverage (ratio 1.0) by a
density-6 area plus half coverage (ratio 0.5) by a density-4 area —
scores 1.0×6 + 0.5×4 = 8, via `c6_thm` with its nonzero-cell-area
hypothesis discharged at cell area 10. -/
theorem c6_witness :
    calculate_population_score 10
      [{ attrs := [("density", some 6)], intersectsCell := true, intersectionArea := 10 },
       { attrs := [("pop", some 4)], intersectsCell := true, intersectionArea := 5 }]
      = some 8 := by
  have h := (c6_thm 10
    [{ attrs := [("density", some 6)], intersectsCell := true, intersectionArea := 10 },
     { attrs := [("pop", some 4)], intersectsCell := true, intersectionArea := 5 }]).1
    (by norm_num)
  rw [h]
  have h1 : resolveAttr popTokens 10 [("density", some 6)] = 6 := by decide
  have h2 : resolveAttr popTokens 10 [("pop", some 4)] = 4 := by decide
  norm_num [List.filter, h1, h2]

/-- C5: each of the community, egress and utility raw scores equals the
maximum (taken with initial value 0, cf. C10) of the spec's per-feature
decay contribution — full resolved magnitude on intersection/touch
(default 10 from attributes for community and egress; fixed base
priorities Transmission=10, Sub-Transmission=8, Distribution=6,
Substations=10, Pole-Top=7 for utilities), `mag × (1 − d/near)` for
`d < near`, `mag × 0.5 × (1 − (d − near)/(far − near))` for
`near ≤ d < far`, else 0 — with radii (100, 300) for community,
(50, 150) for egress, and (30, 100) for every utility sub-layer; the
score dominates every single contribution, so contributions never
accumulate across features. -/
theorem c5_thm (cf ef : List ProxFeature) (U : UtilityLayers) :
    (calculate_community_score cf
        = specMaxScore (cf.map (fun f =>
            specDecayContrib 100 300 (resolveAttr communityTokens 10 f.attrs)
              f.distanceToCell f.intersectsCell)))
      ∧ (calculate_egress_score ef
          = specMaxScore (ef.map (fun f =>
              specDecayContrib 50 150 (resolveAttr egressTokens 10 f.attrs)
                f.distanceToCell f.intersectsCell)))
      ∧ (calculate_utility_score U
          = specMaxScore (
              U.transmission.map (fun f => specDecayContrib 30 100 10 f.distanceToCell f.intersectsCell)
              ++ U.sub_transmission.map (fun f => specDecayContrib 30 100 8 f.distanceToCell f.intersectsCell)
              ++ U.dist_circuits.map (fun f => specDecayContrib 30 100 6 f.distanceToCell f.intersectsCell)
              ++ U.substations.map (fun f => specDecayContrib 30 100 10 f.distanceToCell f.intersectsCell)
              ++ U.pole_top_subs.map (fun f => specDecayContrib 30 100 7 f.distanceToCell f.intersectsCell)))
      ∧ (∀ f ∈ cf,
          specDecayContrib 100 300 (resolveAttr communityTokens 10 f.attrs)
              f.distanceToCell f.intersectsCell
            ≤ calculate_community_score cf)
      ∧ (∀ f ∈ ef,
          specDecayContrib 50 150 (resolveAttr egressTokens 10 f.attrs)
              f.distanceToCell f.intersectsCell
            ≤ calculate_egress_score ef) := by
  refine ⟨calculate_community_score_eq cf, calculate_egress_score_eq ef,
    calculate_utility_score_eq U, ?_, ?_⟩
  · intro f hf
    rw [calculate_community_score_eq cf]
    show _ ≤ (cf.map (fun f =>
        specDecayContrib 100 300 (resolveAttr communityTokens 10 f.attrs)
          f.distanceToCell f.intersectsCell)).foldr max 0
    exact foldr_max_le_of_mem (List.mem_map.mpr ⟨f, hf, rfl⟩)
  · intro f hf
    rw [calculate_egress_score_eq ef]
    show _ ≤ (ef.map (fun f =>
        specDecayContrib 50 150 (resolveAttr egressTokens 10 f.attrs)
          f.distanceToCell f.intersectsCell)).foldr max 0
    exact foldr_max_le_of_mem (List.mem_map.mpr ⟨f, hf, rfl⟩)

/-- C5, witness: the spec's decay scenario — one egress route of
resolved priority 10 at distance 25 with near radius 50 — scores
10 × (1 − 25/50) = 5, via `c5_thm`, and that contribution bounds the
cell's egress score (membership hypothesis discharged concretely). -/
theorem c5_witness :
    calculate_egress_score [{ attrs := [], distanceToCell := 25, intersectsCell := false }] = 5
      ∧ specDecayContrib 50 150 (resolveAttr egressTokens 10 []) 25 false
          ≤ calculate_egress_score
              [{ attrs := [], distanceToCell := 25, intersectsCell := false }] := by
  have h := c5_thm [] [{ attrs := [], distanceToCell := 25, intersectsCell := false }]
    { transmission := [], sub_transmission := [], dist_circuits := [],
      substations := [], pole_top_subs := [] }
  constructor
  · rw [h.2.1]
    norm_num [specMaxScore, specDecayContrib, resolveAttr, max_def]
  · exact h.2.2.2.2 { attrs := [], distanceToCell := 25, intersectsCell := false } (by simp)

/-- C7: the normalizer's degenerate cases — an empty input yields an
empty output; an all-NaN input yields all zeros (of the input's length);
a non-empty input with at least one numeric entry whose numeric minimum
equals its numeric maximum yields exactly 5.0 in every output slot. -/
theorem c7_thm (inverse : Bool) (values : List (Option ℚ)) :
    (values = [] → _normalize_score values inverse = [])
      ∧ (values.all (fun v => v.isNone) = true →
          _normalize_score values inverse = values.map (fun _ => some 0))
      ∧ (values ≠ [] → values.all (fun v => v.isNone) = false →
          nanmin (values.filterMap id) = nanmax (values.filterMap id) →
          _normalize_score values inverse = values.map (fun _ => some 5)) := by
  refine ⟨?_, ?_, ?_⟩
  · intro h
    subst h
    simp [_normalize_score]
  · intro h
    unfold _normalize_score
    rw [if_pos (Or.inr h)]
  · intro hne hall hminmax
    unfold _normalize_score
    dsimp only
    rw [if_neg (by
      rintro (h0 | ha)
      · exact hne (List.length_eq_zero.mp h0)
      · rw [hall] at ha
        cases ha)]
    rw [if_pos hminmax.symm]

/-- C7, witness: instantiating the three degenerate branches —
`[some 3, none, some 3]` (numeric min = max = 3) maps to all 5.0 with
the hypotheses discharged concretely, `[none, none]` maps to all zeros,
and `[]` maps to `[]`. -/
theorem c7_witness :
    _normalize_score [some 3, none, some 3] false = [some 5, some 5, some 5]
      ∧ _normalize_score [none, none] true = [some 0, some 0]
      ∧ _normalize_score [] false = [] := by
  refine ⟨?_, ?_, ?_⟩
  · have h := (c7_thm false [some 3, none, some 3]).2.2 (by simp) (by simp)
      (by norm_num [List.filterMap, nanmin, nanmax, min_def, max_def])
    rw [h]
    rfl
  · have h := (c7_thm true [none, none]).2.1 (by rfl)
    rw [h]
    rfl
  · exact (c7_thm false []).1 rfl

/-- C8: for a non-empty all-numeric input whose minimum differs from its
maximum, the normalizer applies exactly the linear map
`(v − lo)/(hi − lo) × 10` (its 10-complement when the inverse flag is
set), whose outputs lie in [0, 10] on the input's members, which is
order-preserving (order-reversing when inverse), and which sends the
minimum to exactly 0 (10 if inverse) and the maximum to exactly 10 (0 if
inverse). -/
theorem c8_thm (inverse : Bool) (values : List ℚ) (hne : values ≠ [])
    (hlh : nanmin values ≠ nanmax values) :
    (_normalize_score (values.map some) inverse
        = values.map (fun v => some (normMap inverse (nanmin values) (nanmax values) v)))
      ∧ (∀ v ∈ values,
          0 ≤ normMap inverse (nanmin values) (nanmax values) v
            ∧ normMap inverse (nanmin values) (nanmax values) v ≤ 10)
      ∧ (∀ v w : ℚ, v ≤ w → inverse = false →
          normMap inverse (nanmin values) (nanmax values) v
            ≤ normMap inverse (nanmin values) (nanmax values) w)
      ∧ (∀ v w : ℚ, v ≤ w → inverse = true →
          normMap inverse (nanmin values) (nanmax values) w
            ≤ normMap inverse (nanmin values) (nanmax values) v)
      ∧ (normMap inverse (nanmin values) (nanmax values) (nanmin values)
          = if inverse then 10 else 0)
      ∧ (normMap inverse (nanmin values) (nanmax values) (nanmax values)
          = if inverse then 0 else 10) := by
  have hlt : nanmin values < nanmax values :=
    lt_of_le_of_ne (nanmin_le_nanmax hne) hlh
  have hpos : 0 < nanmax values - nanmin values := by linarith
  have hne0 : nanmax values - nanmin values ≠ 0 := ne_of_gt hpos
  have hfm : (values.map some).filterMap id = values := by
    simp [List.filterMap_map]
  refine ⟨?_, ?_, ?_, ?_, ?_, ?_⟩
  · unfold _normalize_score
    dsimp only
    rw [if_neg (by
      rintro (h0 | ha)
      · rw [List.length_map] at h0
        exact hne (List.length_eq_zero.mp h0)
      · cases values with
        | nil => exact hne rfl
        | cons x xs => simp at ha)]
    rw [hfm]
    rw [if_neg (fun h => hlh h.symm)]
    cases inverse with
    | false => simp [List.map_map, Function.comp, normMap]
    | true => simp [List.map_map, Function.comp, normMap]
  · intro v hv
    have h1 : nanmin values ≤ v := nanmin_le hv
    have h2 : v ≤ nanmax values := le_nanmax hv
    have hq0 : 0 ≤ (v - nanmin values) / (nanmax values - nanmin values) :=
      div_nonneg (by linarith) (le_of_lt hpos)
    have hq1 : (v - nanmin values) / (nanmax values - nanmin values) ≤ 1 :=
      (div_le_one hpos).mpr (by linarith)
    cases inverse with
    | false =>
      simp only [normMap, if_false, Bool.false_eq_true]
      constructor
      · nlinarith
      · nlinarith
    | true =>
      simp only [normMap, if_true]
      constructor
      · nlinarith
      · nlinarith
  · intro v w hvw hinv
    subst hinv
    simp only [normMap, if_false, Bool.false_eq_true]
    have hq : (v - nanmin values) / (nanmax values - nanmin values)
        ≤ (w - nanmin values) / (nanmax values - nanmin values) :=
      (div_le_div_iff_of_pos_right hpos).mpr (by linarith)
    linarith
  · intro v w hvw hinv
    subst hinv
    simp only [normMap, if_true]
    have hq : (v - nanmin values) / (nanmax values - nanmin values)
        ≤ (w - nanmin values) / (nanmax values - nanmin values) :=
      (div_le_div_iff_of_pos_right hpos).mpr (by linarith)
    linarith
  · cases inverse with
    | false => simp [normMap]
    | true => simp [normMap]
  · cases inverse with
    | false => simp [normMap, div_self hne0]
    | true => simp [normMap, div_self hne0]

/-- C8, witness: on the input [0, 4] (min 0 ≠ max 4) the normalizer
produces [0, 10] in the forward direction and [10, 0] with the inverse
flag, via `c8_thm` with both hypotheses discharged concretely. -/
theorem c8_witness :
    _normalize_score [some 0, some 4] false = [some 0, some 10]
      ∧ _normalize_score [some 0, some 4] true = [some 10, some 0] := by
  have hm : nanmin [(0:ℚ), 4] = 0 := by norm_num [nanmin, min_def]
  have hM : nanmax [(0:ℚ), 4] = 4 := by norm_num [nanmax, max_def]
  have h1 := (c8_thm false [0, 4] (by simp) (by rw [hm, hM]; norm_num)).1
  have h2 := (c8_thm true [0, 4] (by simp) (by rw [hm, hM]; norm_num)).1
  rw [hm, hM] at h1 h2
  constructor
  · rw [show ([some (0:ℚ), some 4] : List (Option ℚ)) = [(0:ℚ), 4].map some from rfl, h1]
    norm_num [normMap]
  · rw [show ([some (0:ℚ), some 4] : List (Option ℚ)) = [(0:ℚ), 4].map some from rfl, h2]
    norm_num [normMap]

/-- C9: dense ranking over the final normalized priority column — equal
values receive the same rank, a strictly greater value receives a
strictly smaller rank, and the set of ranks used is exactly the
contiguous integer interval from 1 to the number of distinct values,
with no gaps across tied groups. -/
theorem c9_thm (scores : List ℚ) :
    (∀ a b : ℚ, a = b → priority_rank scores a = priority_rank scores b)
      ∧ (∀ a b : ℚ, a ∈ scores → b ∈ scores → b < a →
          priority_rank scores a < priority_rank scores b)
      ∧ scores.toFinset.image (priority_rank scores)
          = Finset.Icc 1 scores.toFinset.card := by
  have key : ∀ a b : ℚ, a ∈ scores → b ∈ scores → b < a →
      priority_rank scores a < priority_rank scores b := by
    intro a b ha hb hba
    unfold priority_rank
    have hsub : scores.toFinset.filter (fun w => a < w)
        ⊆ scores.toFinset.filter (fun w => b < w) := by
      intro w hw
      rcases Finset.mem_filter.mp hw with ⟨hw1, hw2⟩
      exact Finset.mem_filter.mpr ⟨hw1, lt_trans hba hw2⟩
    have hmem : a ∈ scores.toFinset.filter (fun w => b < w) :=
      Finset.mem_filter.mpr ⟨List.mem_toFinset.mpr ha, hba⟩
    have hnot : a ∉ scores.toFinset.filter (fun w => a < w) := by
      intro hc
      exact lt_irrefl a (Finset.mem_filter.mp hc).2
    have hss := (Finset.ssubset_iff_of_subset hsub).mpr ⟨a, hmem, hnot⟩
    exact Nat.add_lt_add_right (Finset.card_lt_card hss) 1
  refine ⟨fun a b h => by rw [h], key, ?_⟩
  apply Finset.eq_of_subset_of_card_le
  · intro r hr
    rcases Finset.mem_image.mp hr with ⟨v, hv, rfl⟩
    rw [Finset.mem_Icc]
    refine ⟨Nat.succ_le_succ (Nat.zero_le _), ?_⟩
    unfold priority_rank
    have hsub : scores.toFinset.filter (fun w => v < w) ⊆ scores.toFinset.erase v := by
      intro w hw
      rcases Finset.mem_filter.mp hw with ⟨hw1, hw2⟩
      exact Finset.mem_erase.mpr ⟨ne_of_gt hw2, hw1⟩
    have h1 := Finset.card_le_card hsub
    rw [Finset.card_erase_of_mem hv] at h1
    have hpos : 1 ≤ scores.toFinset.card := Finset.card_pos.mpr ⟨v, hv⟩
    omega
  · rw [Nat.card_Icc]
    have hcard : (scores.toFinset.image (priority_rank scores)).card
        = scores.toFinset.card := by
      apply Finset.card_image_of_injOn
      intro a ha b hb hab
      by_contra hne
      rcases lt_or_gt_of_ne hne with h | h
      · have := key b a (List.mem_toFinset.mp (Finset.mem_coe.mp hb))
          (List.mem_toFinset.mp (Finset.mem_coe.mp ha)) h
        omega
      · have := key a b (List.mem_toFinset.mp (Finset.mem_coe.mp ha))
          (List.mem_toFinset.mp (Finset.mem_coe.mp hb)) h
        omega
    omega

/-- C9, witness: on the column [3, 1, 3] the tied value 3 gets rank 1,
the lower value 1 gets the immediately following rank 2 (membership and
ordering hypotheses of `c9_thm` discharged concretely), and the ranks
used form the interval {1, 2}. -/
theorem c9_witness :
    priority_rank [3, 1, 3] 3 < priority_rank [3, 1, 3] 1
      ∧ ([3, 1, 3] : List ℚ).toFinset.image (priority_rank [3, 1, 3])
          = Finset.Icc 1 ([3, 1, 3] : List ℚ).toFinset.card := by
  constructor
  · exact (c9_thm [3, 1, 3]).2.1 3 1 (by simp) (by simp) (by norm_num)
  · exact (c9_thm [3, 1, 3]).2.2

/-- C10: the community, egress and utility raw scores are non-negative
on every input — including features whose resolved magnitude attribute
parses to a negative number — because each score is a running maximum
whose initial value is 0. -/
theorem c10_thm (cf ef : List ProxFeature) (U : UtilityLayers) :
    0 ≤ calculate_community_score cf
      ∧ 0 ≤ calculate_egress_score ef
      ∧ 0 ≤ calculate_utility_score U := by
  refine ⟨le_foldl_maxf communityContrib cf 0, le_foldl_maxf egressContrib ef 0, ?_⟩
  unfold calculate_utility_score utilityLayerStep
  exact le_trans (le_foldl_maxf (utilityContrib 10) U.transmission 0)
    (le_trans (le_foldl_maxf (utilityContrib 8) U.sub_transmission _)
      (le_trans (le_foldl_maxf (utilityContrib 6) U.dist_circuits _)
        (le_trans (le_foldl_maxf (utilityContrib 10) U.substations _)
          (le_foldl_maxf (utilityContrib 7) U.pole_top_subs _))))

end FireCreek
